import Mathlib

/-!
Verification model of the `poc-redis-cache` repository (C++ sources under
`src/Cpp`), centred on `redis_poc_cache_hiredis_lru.cpp` and
`ScriptManager.h`.  The cache state (local files, scratch files, the
per-key Redis lock keys, the LRU/size/keyset/total indices and the purge
mutex) is embedded shallowly as a pure Lean state, and each C++ routine is
translated into a pure state-passing function.  Redis Lua scripts are
atomic server-side, so each script is one Lean function on the lock state.
TTL expiry and wall-clock time are not modelled (no claim depends on a
lease actually expiring); timestamps are explicit `Int` parameters.
I/O faults (failed `write`, `fsync`, `rename`, ...) are injected through
explicit fault parameters, and each operation additionally returns the
list of filesystem / coordination effects it performed, in order.
-/

namespace PocRedisCache

/-! ## Decimal strings

Redis stores the `NS:idx:total` counter as a string.  `get_total_bytes`
reads it back through `std::stoll` (prefix parse, fallback 0 on failure),
and `INCRBY` requires the whole stored value to be a decimal integer.
We model both parsers over `List Char` / `String`. -/

/-- The decimal digit character for `d` (meaningful for `d < 10`). -/
def digitChar (d : Nat) : Char := Char.ofNat (48 + d)

/-- Decimal digits, most significant first; `fuel` only bounds the
recursion depth (any `fuel ≥ n` is exact). -/
def natToDigitsAux : Nat → Nat → List Char
  | 0, n => [digitChar n]
  | fuel + 1, n =>
    if n < 10 then [digitChar n]
    else natToDigitsAux fuel (n / 10) ++ [digitChar (n % 10)]

/-- Decimal digits of `n`, most significant first (as written by Redis). -/
def natToDigits (n : Nat) : List Char := natToDigitsAux n n

theorem natToDigitsAux_invar (f1 : Nat) :
    ∀ f2 n : Nat, n ≤ f1 → n ≤ f2 → natToDigitsAux f1 n = natToDigitsAux f2 n := by
  induction f1 with
  | zero =>
    intro f2 n h1 h2
    interval_cases n
    cases f2 with
    | zero => rfl
    | succ g => simp [natToDigitsAux]
  | succ m ih =>
    intro f2 n h1 h2
    by_cases hn : n < 10
    · cases f2 with
      | zero =>
        interval_cases n
        simp [natToDigitsAux]
      | succ g => simp [natToDigitsAux, hn]
    · cases f2 with
      | zero => omega
      | succ g =>
        simp only [natToDigitsAux, hn, if_false]
        rw [ih g (n / 10) (by omega) (by omega)]

/-- The recursion equation of `natToDigits`. -/
theorem natToDigits_eq (n : Nat) :
    natToDigits n = if n < 10 then [digitChar n]
      else natToDigits (n / 10) ++ [digitChar (n % 10)] := by
  by_cases hn : n < 10
  · cases hh : n with
    | zero => simp [natToDigits, natToDigitsAux, hn]
    | succ m =>
      subst hh
      simp [natToDigits, natToDigitsAux, hn]
  · cases hh : n with
    | zero => omega
    | succ m =>
      subst hh
      simp only [natToDigits, natToDigitsAux, hn, if_false]
      rw [natToDigitsAux_invar m ((m + 1) / 10) ((m + 1) / 10) (by omega) (by omega)]

/-- Value of a decimal digit character, `none` for non-digits. -/
def digitVal (c : Char) : Option Nat :=
  if 48 ≤ c.toNat ∧ c.toNat ≤ 57 then some (c.toNat - 48) else none

/-- Consume a maximal run of decimal digits, folding them onto `acc`
(the core of `std::stoll`'s digit loop). -/
def takeDigits : List Char → Nat → Nat × List Char
  | [], acc => (acc, [])
  | c :: cs, acc =>
    match digitVal c with
    | some d => takeDigits cs (acc * 10 + d)
    | none => (acc, c :: cs)

/-- Whitespace characters skipped by `std::stoll` (`isspace`: space, tab,
newline, vertical tab, form feed, carriage return — by code point). -/
def isSpaceChar (c : Char) : Bool :=
  c.toNat = 32 || c.toNat = 9 || c.toNat = 10 || c.toNat = 11 ||
    c.toNat = 12 || c.toNat = 13

/-- Skip leading whitespace (as `std::stoll` does). -/
def skipWs : List Char → List Char
  | [] => []
  | c :: cs => if isSpaceChar c then skipWs cs else c :: cs

/-- `std::stoll` on a character list: optional sign, at least one digit,
parse the longest digit prefix; `none` models the thrown exception. -/
def stollChars (l : List Char) : Option Int :=
  match skipWs l with
  | [] => none
  | c :: cs =>
    if c = '-' then
      match cs with
      | [] => none
      | d :: _ =>
        if (digitVal d).isSome then some (-(((takeDigits cs 0).1 : Int))) else none
    else if c = '+' then
      match cs with
      | [] => none
      | d :: _ =>
        if (digitVal d).isSome then some (((takeDigits cs 0).1 : Int)) else none
    else if (digitVal c).isSome then some (((takeDigits (c :: cs) 0).1 : Int))
    else none

/-- `std::stoll` on a string (`none` = it would throw). -/
def stoll (s : String) : Option Int := stollChars s.data

/-- Redis `INCRBY` argument check: the whole value must be a decimal
integer (optional minus sign, digits only). -/
def redisInt (s : String) : Option Int :=
  match s.data with
  | [] => none
  | c :: cs =>
    if c = '-' then
      if cs.isEmpty then none
      else if cs.all (fun x => (digitVal x).isSome) then
        some (-(((takeDigits cs 0).1 : Int)))
      else none
    else if (c :: cs).all (fun x => (digitVal x).isSome) then
      some (((takeDigits (c :: cs) 0).1 : Int))
    else none

/-- The decimal representation Redis stores after arithmetic. -/
def encodeInt (i : Int) : String :=
  if i < 0 then ⟨'-' :: natToDigits (-i).toNat⟩ else ⟨natToDigits i.toNat⟩

/-! ## Per-key coordination state and the Lua scripts

For one cache key, Redis holds up to three coordination keys:
`NS:lock:write:<key>` (string, the writer token), `NS:lock:readers:<key>`
(integer counter) and `NS:lock:evict:<key>` (flag).  An absent Redis key
is `none` / `false`.  Each Lua script is atomic server-side, so it is one
Lean function returning the script's integer reply and the new state.
`PEXPIRE` / `PX` arguments only set leases, which the untimed model drops. -/

structure KeyLocks where
  /-- value of the write-lock key (`none` = key absent) -/
  wl : Option String := none
  /-- value of the reader-counter key (`none` = key absent) -/
  rd : Option Int := none
  /-- presence of the eviction-fence key -/
  fence : Bool := false
deriving Repr, DecidableEq

/-- `LUA_READ_LOCK_ACQUIRE`: fail (0) if the write-lock key exists, else
`INCR` the reader counter, refresh its expiry, and return 1. -/
def luaReadLockAcquire (l : KeyLocks) : Int × KeyLocks :=
  if l.wl.isSome then (0, l)
  else (1, { l with rd := some (l.rd.getD 0 + 1) })

/-- `LUA_READ_LOCK_RELEASE`: `DECR` the reader counter (Redis treats an
absent counter as 0), `DEL` it when the result is ≤ 0; always return 1. -/
def luaReadLockRelease (l : KeyLocks) : Int × KeyLocks :=
  let c := l.rd.getD 0 - 1
  if c ≤ 0 then (1, { l with rd := none }) else (1, { l with rd := some c })

/-- `LUA_WRITE_LOCK_ACQUIRE`: 0 if the write-lock key exists; -1 if the
reader counter (`GET`, absent read as "0") is > 0; else `SET ... NX PX`
the token and return 1 (0 if the `NX` set were to fail). -/
def luaWriteLockAcquire (token : String) (l : KeyLocks) : Int × KeyLocks :=
  if l.wl.isSome then (0, l)
  else if l.rd.getD 0 > 0 then (-1, l)
  else if l.wl.isNone then (1, { l with wl := some token }) else (0, l)

/-- `LUA_WRITE_LOCK_RELEASE`: `GET` the write-lock key; `DEL` it and
return 1 only when the stored value equals the supplied token, else
return 0 leaving everything unchanged. -/
def luaWriteLockRelease (token : String) (l : KeyLocks) : Int × KeyLocks :=
  match l.wl with
  | some cur => if cur = token then (1, { l with wl := none }) else (0, l)
  | none => (0, l)

/-- `LUA_CAN_EVICT`: 0 if the write-lock key exists; 0 if the reader
counter is > 0; else `SET fence '1' NX PX ttl` — 1 when the fence was
absent and is now set, 0 when it already existed. -/
def luaCanEvict (l : KeyLocks) : Int × KeyLocks :=
  if l.wl.isSome then (0, l)
  else if l.rd.getD 0 > 0 then (0, l)
  else if l.fence then (0, l) else (1, { l with fence := true })

/-- One application of a coordination script used by the read/write lock
protocol (`token` ranges over all strings for the write scripts). -/
inductive LockStep : KeyLocks → KeyLocks → Prop
  | readAcq (l : KeyLocks) : LockStep l (luaReadLockAcquire l).2
  | readRel (l : KeyLocks) : LockStep l (luaReadLockRelease l).2
  | writeAcq (token : String) (l : KeyLocks) : LockStep l (luaWriteLockAcquire token l).2
  | writeRel (token : String) (l : KeyLocks) : LockStep l (luaWriteLockRelease token l).2

/-- The idle coordination state: no write lock, no readers, no fence. -/
def idleLocks : KeyLocks := {}

/-- Lock states reachable from idle through the four lock scripts. -/
inductive ReachableLock : KeyLocks → Prop
  | idle : ReachableLock idleLocks
  | step {l l' : KeyLocks} : ReachableLock l → LockStep l l' → ReachableLock l'

/-! ## Whole-cache state

`Sys` is the state a `RedisFileCache` handle acts on: the published files
(`cache_dir/<key>` keyed by cache key), the scratch files (one per key,
`cache_dir/.<key>.XXXXXX`), the per-key coordination state, and the LRU /
size / key-set / total indices plus the purge mutex, all living in Redis.
Association lists model the Redis hash/zset containers. -/

structure Sys where
  /-- published files: key ↦ payload bytes -/
  files : List (String × String) := []
  /-- scratch files present, by owning key ↦ current contents -/
  scratch : List (String × String) := []
  /-- per-key coordination keys (absent entry = all keys absent) -/
  locks : List (String × KeyLocks) := []
  /-- `NS:idx:lru` ZSET: key ↦ last-access score -/
  lru : List (String × Int) := []
  /-- `NS:idx:size` HASH: key ↦ byte size -/
  sizes : List (String × Int) := []
  /-- `NS:keys:set` -/
  keyset : List String := []
  /-- raw stored value of `NS:idx:total` (`none` = key absent) -/
  total : Option String := none
  /-- presence of `NS:purge:mutex` -/
  purgeMtx : Bool := false
deriving Repr, DecidableEq

/-- Remove all bindings of `k` from an association list. -/
def eraseKey {β : Type} (k : String) (l : List (String × β)) : List (String × β) :=
  l.filter (fun p => !(p.1 == k))

/-- Coordination state of `key` (absent entry = idle). -/
def lockFor (key : String) (s : Sys) : KeyLocks :=
  (s.locks.lookup key).getD idleLocks

/-- Store the coordination state of `key`. -/
def setLock (key : String) (l : KeyLocks) (s : Sys) : Sys :=
  { s with locks := (key, l) :: eraseKey key s.locks }

/-- Filesystem / coordination effects, in program order. -/
inductive Ev where
  | evStat (present : Bool)
  | evAcquireRead (res : Int)
  | evReleaseRead
  | evAcquireWrite (res : Int)
  | evReleaseWrite
  | evOpen (ok : Bool)
  | evClose
  | evMkstemp (ok : Bool)
  | evWriteChunk (ok : Bool)
  | evFsync (ok : Bool)
  | evUnlinkScratch
  | evRename (ok : Bool)
  | evTouchLru
  | evIndexAdd
  | evEnsureCapacity
deriving Repr, DecidableEq

/-! ## Key validation and the lock helpers -/

/-- `validate_key`: true iff the key passes (`key.empty() ||
key.front() == '.' || key.find('/') != npos` throws
`std::invalid_argument`).  Stated over the key's character list;
`headD ' '` stands for `front()`, which the C++ short-circuit never
evaluates on an empty key. -/
def validate_key (key : String) : Bool :=
  !(key.data.isEmpty || key.data.headD ' ' == '.' || key.data.contains '/')

/-- `acquire_read` without the throw: script reply and new state.  The
caller throws `CacheBusyError` when the reply is not 1. -/
def acquire_read (key : String) (s : Sys) : Int × Sys :=
  let (r, l) := luaReadLockAcquire (lockFor key s)
  (r, setLock key l s)

/-- `release_read`: run the release script; the surrounding
`try { ... } catch (...) {}` makes the call non-throwing. -/
def release_read (key : String) (s : Sys) : Sys :=
  (setLock key (luaReadLockRelease (lockFor key s)).2 s)

/-- `acquire_write` without the throw: script reply and new state
(`token` is the freshly generated 128-bit hex token).  The caller throws
`CacheBusyError` on replies 0 and -1. -/
def acquire_write (key token : String) (s : Sys) : Int × Sys :=
  let (r, l) := luaWriteLockAcquire token (lockFor key s)
  (r, setLock key l s)

/-- `release_write`: run the release script inside `try/catch (...) {}`.
`transportFail = true` models the Redis call itself failing (the script
never runs); the catch-all swallows the exception either way, so the
function is total and returns a plain state. -/
def release_write (transportFail : Bool) (key token : String) (s : Sys) : Sys :=
  if transportFail then s
  else setLock key (luaWriteLockRelease token (lockFor key s)).2 s

/-! ## Index maintenance -/

/-- `touch_lru`: `ZADD idx:lru ts key` (insert or update the score). -/
def touch_lru (key : String) (ts : Int) (s : Sys) : Sys :=
  { s with lru := (key, ts) :: eraseKey key s.lru }

/-- Redis `INCRBY` on `NS:idx:total`: absent is treated as 0; a stored
value that is not a whole decimal integer makes Redis reply with an
error (`none`), which `cmd_ll` turns into a thrown exception. -/
def incrByTotal (n : Int) (s : Sys) : Option Sys :=
  let cur : Option Int :=
    match s.total with
    | none => some 0
    | some str => redisInt str
  match cur with
  | none => none
  | some c => some { s with total := some (encodeInt (c + n)) }

/-- `index_add_on_publish`: `HSET` the size, `INCRBY` the total, `SADD`
the key set, `ZADD` the LRU score — four separate calls in this order.
`.error st` carries the state at the point the `INCRBY` threw. -/
def index_add_on_publish (key : String) (size ts : Int) (s : Sys) : Except Sys Sys :=
  let s1 := { s with sizes := (key, size) :: eraseKey key s.sizes }
  match incrByTotal size s1 with
  | none => .error s1
  | some s2 =>
    let s3 := { s2 with keyset := key :: s2.keyset.erase key }
    .ok (touch_lru key ts s3)

/-- `index_remove_on_delete`: `HDEL` the size, `INCRBY -size`, `ZREM`
the LRU entry, `SREM` the key set, in this order. -/
def index_remove_on_delete (key : String) (size : Int) (s : Sys) : Except Sys Sys :=
  let s1 := { s with sizes := eraseKey key s.sizes }
  match incrByTotal (-size) s1 with
  | none => .error s1
  | some s2 =>
    .ok { s2 with lru := eraseKey key s2.lru, keyset := s2.keyset.erase key }

/-- `get_total_bytes`: `GET` the total key (`cmd_s` returns `""` for a
nil reply), return 0 for an empty string, else `std::stoll` with every
exception mapped to 0. -/
def get_total_bytes (s : Sys) : Int :=
  match s.total with
  | none => 0
  | some str => if str.data.isEmpty then 0 else (stoll str).getD 0

/-! ## Public operations -/

/-- Errors surfaced by `read_bytes` (`std::invalid_argument`,
`CacheBusyError`, `std::system_error`). -/
inductive RErr where
  | invalidKey
  | busy
  | notFound
  | ioErr
deriving Repr, DecidableEq

/-- Fault injection for `read_bytes`: `openFail` = `::open` fails with an
errno other than `ENOENT` even though the file exists; `readFail` = a
`::read` call returns -1. -/
structure RFaults where
  openFail : Bool := false
  readFail : Bool := false
deriving Repr, DecidableEq

/-- `exists(key)`: validate, then `stat` the path.  Invalid keys throw
before the filesystem call (empty effect list). -/
def exists_op (key : String) (s : Sys) : Except RErr Bool × List Ev :=
  if !validate_key key then (.error .invalidKey, [])
  else
    let present := (s.files.lookup key).isSome
    (.ok present, [.evStat present])

/-- `read_bytes(key)`: validate, acquire the read lock, `open`/`read`/
`close` the file, release the read lock, touch the LRU score.  The error
branches inside the `try` release the read lock themselves and then
throw; the surrounding `catch (...)` handler releases it again (and
re-closes an already-closed descriptor in the read-error branch) before
rethrowing — so those paths run the release script twice. -/
def read_bytes (f : RFaults) (nowT : Int) (key : String) (s : Sys) :
    Except RErr String × Sys × List Ev :=
  if !validate_key key then (.error .invalidKey, s, [])
  else
    let (res, s1) := acquire_read key s
    if res ≠ 1 then (.error .busy, s1, [.evAcquireRead res])
    else
      match s1.files.lookup key, f.openFail with
      | none, _ =>
        -- open fails with ENOENT: release, throw FileNotFound; the catch
        -- handler sees fd < 0, releases again, rethrows.
        let s2 := release_read key (release_read key s1)
        (.error .notFound, s2,
          [.evAcquireRead res, .evOpen false, .evReleaseRead, .evReleaseRead])
      | some _, true =>
        -- open fails with some other errno: same two releases.
        let s2 := release_read key (release_read key s1)
        (.error .ioErr, s2,
          [.evAcquireRead res, .evOpen false, .evReleaseRead, .evReleaseRead])
      | some b, false =>
        if f.readFail then
          -- a read fails: close, release, throw; the catch handler closes
          -- the (already closed) fd again and releases again.
          let s2 := release_read key (release_read key s1)
          (.error .ioErr, s2,
            [.evAcquireRead res, .evOpen true, .evClose, .evReleaseRead,
             .evClose, .evReleaseRead])
        else
          let s2 := touch_lru key nowT (release_read key s1)
          (.ok b, s2,
            [.evAcquireRead res, .evOpen true, .evClose, .evReleaseRead,
             .evTouchLru])

/-- Errors surfaced by `write_bytes_create`. -/
inductive WErr where
  | invalidKey
  | alreadyExists
  | busy
  | ioMkstemp
  | ioWrite
  | ioFsync
  | concurrentExists
  | ioRename
  | coordErr
deriving Repr, DecidableEq

/-- Fault injection for `write_bytes_create`.  `concurrentCreate` models
an external process publishing `some b` at the target path between the
fast-path existence check and the final create-only check. -/
structure WFaults where
  mkstempFail : Bool := false
  writeFail : Bool := false
  fsyncFail : Bool := false
  concurrentCreate : Option String := none
  renameFail : Bool := false
deriving Repr, DecidableEq

/-- Capacity loop, continued below (mutually used by
`write_bytes_create`). -/
def zrangeHead (lru : List (String × Int)) : Option (String × Int) :=
  lru.foldl
    (fun acc x =>
      match acc with
      | none => some x
      | some a => if x.2 < a.2 || (x.2 == a.2 && x.1 < a.1) then some x else some a)
    none

/-- `try_evict_one`: pick the LRU head, look its size up, run the
`CAN_EVICT` fence script, unlink the file, clean the indices.  Returns
`.ok (victimFound, state)`; `.error st` is an exception escaping to
`ensure_capacity`'s catch-all.  `nowT` is `now_ms()`. -/
def try_evict_one (nowT : Int) (s : Sys) : Except Sys (Bool × Sys) :=
  match zrangeHead s.lru with
  | none => .ok (false, s)
  | some (key, _) =>
    match s.sizes.lookup key with
    | none =>
      -- index drift: ZREM + SREM, no victim this pass
      .ok (false, { s with lru := eraseKey key s.lru, keyset := s.keyset.erase key })
    | some sz =>
      let (ok, l) := luaCanEvict (lockFor key s)
      let s1 := setLock key l s
      if ok ≠ 1 then
        -- fence refused: nudge the LRU score to now and give up this pass
        .ok (false, touch_lru key nowT s1)
      else
        match s1.files.lookup key with
        | none =>
          -- unlink failed (file already gone): still clean the indices
          (index_remove_on_delete key sz s1).map (fun s2 => (false, s2))
        | some _ =>
          let s2 := { s1 with files := eraseKey key s1.files }
          (index_remove_on_delete key sz s2).map (fun s3 => (true, s3))

/-- The purger's `while (get_total_bytes() > max_bytes_)` loop.  `fuel`
only bounds the recursion depth of the model; an exception from
`try_evict_one` ends the loop with the state at the throw (swallowed by
`ensure_capacity`'s `catch (...)`). -/
def purgeLoop : Nat → Int → Int → Sys → Sys
  | 0, _, _, s => s
  | fuel + 1, nowT, maxBytes, s =>
    if get_total_bytes s > maxBytes then
      match try_evict_one nowT s with
      | .error sErr => sErr
      | .ok (false, s') => s'
      | .ok (true, s') => purgeLoop fuel nowT maxBytes s'
    else s

/-- `ensure_capacity`: no-op when `max_bytes_ ≤ 0`; `SET purge:mutex 1 NX
PX 2000` elects a single best-effort purger (give up when the mutex is
held); then run the purge loop, swallowing any exception. -/
def ensure_capacity (nowT maxBytes : Int) (s : Sys) : Sys :=
  if maxBytes ≤ 0 then s
  else if s.purgeMtx then s
  else
    let s1 := { s with purgeMtx := true }
    purgeLoop (s1.lru.length + 1) nowT maxBytes s1

/-- `write_bytes_create(key, data)`: validate; fast-path `EEXIST` check;
acquire the write lock with a fresh `token`; `mkstemp` a scratch file;
write the payload; `fsync`; `close`; final create-only check; `rename`
scratch → target (the publish); release the write lock; update the
indices; run `ensure_capacity` when `max_bytes_ > 0`.  Every failure
after the scratch file exists unlinks it and releases the write lock
before throwing.  `nowT` is `now_ms()` at the index update. -/
def write_bytes_create (f : WFaults) (token : String) (nowT maxBytes : Int)
    (key data : String) (s : Sys) : Except WErr Unit × Sys × List Ev :=
  if !validate_key key then (.error .invalidKey, s, [])
  else if (s.files.lookup key).isSome then (.error .alreadyExists, s, [.evStat true])
  else
    let (res, s1) := acquire_write key token s
    if res ≠ 1 then (.error .busy, s1, [.evStat false, .evAcquireWrite res])
    else
      let tr0 := [Ev.evStat false, Ev.evAcquireWrite res]
      if f.mkstempFail then
        (.error .ioMkstemp, release_write false key token s1,
          tr0 ++ [.evMkstemp false, .evReleaseWrite])
      else
        let s2 := { s1 with scratch := (key, "") :: eraseKey key s1.scratch }
        let tr1 := tr0 ++ [Ev.evMkstemp true]
        if f.writeFail && data ≠ "" then
          -- a ::write call failed: close, unlink scratch, release, throw
          let s3 := release_write false key token
            { s2 with scratch := eraseKey key s2.scratch }
          (.error .ioWrite, s3,
            tr1 ++ [.evWriteChunk false, .evClose, .evUnlinkScratch, .evReleaseWrite])
        else
          let s3 := { s2 with scratch := (key, data) :: eraseKey key s2.scratch }
          let tr2 := tr1 ++ (if data = "" then [] else [Ev.evWriteChunk true])
          if f.fsyncFail then
            let s4 := release_write false key token
              { s3 with scratch := eraseKey key s3.scratch }
            (.error .ioFsync, s4,
              tr2 ++ [.evFsync false, .evClose, .evUnlinkScratch, .evReleaseWrite])
          else
            let tr3 := tr2 ++ [Ev.evFsync true, Ev.evClose]
            -- external concurrent publish, if any, lands here
            let s4 :=
              match f.concurrentCreate with
              | some b => { s3 with files := (key, b) :: eraseKey key s3.files }
              | none => s3
            if (s4.files.lookup key).isSome then
              let s5 := release_write false key token
                { s4 with scratch := eraseKey key s4.scratch }
              (.error .concurrentExists, s5,
                tr3 ++ [.evStat true, .evUnlinkScratch, .evReleaseWrite])
            else
              let tr4 := tr3 ++ [Ev.evStat false]
              if f.renameFail then
                let s5 := release_write false key token
                  { s4 with scratch := eraseKey key s4.scratch }
                (.error .ioRename, s5,
                  tr4 ++ [.evRename false, .evUnlinkScratch, .evReleaseWrite])
              else
                let s5 := { s4 with
                  files := (key, data) :: eraseKey key s4.files,
                  scratch := eraseKey key s4.scratch }
                let s6 := release_write false key token s5
                let tr5 := tr4 ++ [Ev.evRename true, Ev.evReleaseWrite]
                match index_add_on_publish key (data.length : Int) nowT s6 with
                | .error s7 =>
                  -- the INCRBY threw out of write_bytes_create (after publish)
                  (.error .coordErr, s7, tr5 ++ [.evIndexAdd])
                | .ok s7 =>
                  let s8 := if maxBytes > 0 then ensure_capacity nowT maxBytes s7 else s7
                  (.ok (), s8,
                    tr5 ++ [Ev.evIndexAdd] ++
                      (if maxBytes > 0 then [Ev.evEnsureCapacity] else []))

/-! ## Blocking wrappers

`read_bytes_blocking` / `write_bytes_create_blocking` are retry loops
around the non-blocking calls.  Between attempts the world is changed by
other processes, so attempt `i`'s outcome is an oracle `att i`; the
`steady_clock::now() >= deadline` test after attempt `i` is the oracle
`dl i` (monotone for a real clock).  The model returns the loop result
together with how many attempts ran and how many backoff sleeps
happened.  `fuel` bounds the recursion depth only. -/

inductive ReadAttempt where
  | rSuccess (b : String)
  | rBusy
  | rNotFound
  | rOtherErr
deriving Repr, DecidableEq

inductive ReadBlockRes where
  | gotData (b : String)
  | timedOut
  | surfacedErr
deriving Repr, DecidableEq

/-- The `while (true)` loop of `read_bytes_blocking`, starting at attempt
index `i`: `Busy` and `ENOENT` fall through to the deadline check and a
backoff sleep; any other error propagates; the deadline is only tested
after a failed attempt. -/
def read_bytes_blocking_loop (att : Nat → ReadAttempt) (dl : Nat → Bool) :
    Nat → Nat → ReadBlockRes × Nat × Nat
  | _, 0 => (.timedOut, 0, 0)
  | i, fuel + 1 =>
    match att i with
    | .rSuccess b => (.gotData b, 1, 0)
    | .rOtherErr => (.surfacedErr, 1, 0)
    | _ =>
      if dl i then (.timedOut, 1, 0)
      else
        let (r, n, sl) := read_bytes_blocking_loop att dl (i + 1) fuel
        (r, n + 1, sl + 1)

/-- `read_bytes_blocking`: run the loop from attempt 0. -/
def read_bytes_blocking (att : Nat → ReadAttempt) (dl : Nat → Bool) (fuel : Nat) :
    ReadBlockRes × Nat × Nat :=
  read_bytes_blocking_loop att dl 0 fuel

inductive WriteAttempt where
  | wSuccess
  | wBusy
  | wAlreadyExists
  | wOtherErr
deriving Repr, DecidableEq

inductive WriteBlockRes where
  | created
  | timedOut
  | surfacedErr
deriving Repr, DecidableEq

/-- The loop of `write_bytes_create_blocking`: only `CacheBusyError`
falls through to the deadline check; every `std::system_error` (whether
`EEXIST` or not) is rethrown immediately. -/
def write_bytes_create_blocking_loop (att : Nat → WriteAttempt) (dl : Nat → Bool) :
    Nat → Nat → WriteBlockRes × Nat × Nat
  | _, 0 => (.timedOut, 0, 0)
  | i, fuel + 1 =>
    match att i with
    | .wSuccess => (.created, 1, 0)
    | .wAlreadyExists => (.surfacedErr, 1, 0)
    | .wOtherErr => (.surfacedErr, 1, 0)
    | .wBusy =>
      if dl i then (.timedOut, 1, 0)
      else
        let (r, n, sl) := write_bytes_create_blocking_loop att dl (i + 1) fuel
        (r, n + 1, sl + 1)

/-- `write_bytes_create_blocking`: run the loop from attempt 0. -/
def write_bytes_create_blocking (att : Nat → WriteAttempt) (dl : Nat → Bool)
    (fuel : Nat) : WriteBlockRes × Nat × Nat :=
  write_bytes_create_blocking_loop att dl 0 fuel

/-! ## Script loading and NOSCRIPT recovery

The Redis script cache is a set of identifiers; `SCRIPT LOAD` computes
the identifier of a body with the server's content hash (an arbitrary
function parameter here) and adds it.  `EVALSHA` of an uncached
identifier yields an error reply whose text carries `NOSCRIPT`; a cached
script may itself fail (`scriptErr`) or reply with an integer
(`evalRes`). -/

structure Server where
  cache : List String := []
  evalRes : String → Int := fun _ => 0
  scriptErr : String → Option String := fun _ => none

inductive RawReply where
  | intVal (v : Int)
  | errReply (msg : String)
deriving Repr, DecidableEq

/-- One `EVALSHA sha ...` round trip to the server. -/
def evalshaRaw (sv : Server) (sha : String) : RawReply :=
  if sv.cache.contains sha then
    match sv.scriptErr sha with
    | some m => .errReply m
    | none => .intVal (sv.evalRes sha)
  else .errReply "NOSCRIPT No matching script. Please use EVAL."

/-- `SCRIPT LOAD body`: returns the identifier, now cached. -/
def script_load (hash : String → String) (body : String) (sv : Server) :
    String × Server :=
  let h := hash body
  (h, { sv with cache := if sv.cache.contains h then sv.cache else h :: sv.cache })

/-- Does `needle` occur at the head of `hay`? -/
def matchesAt : List Char → List Char → Bool
  | _, [] => true
  | [], _ :: _ => false
  | h :: t, n :: ns => h == n && matchesAt t ns

/-- Substring search over character lists. -/
def containsSubChars : List Char → List Char → Bool
  | [], needle => needle.isEmpty
  | h :: t, needle => matchesAt (h :: t) needle || containsSubChars t needle

/-- `msg.find("NOSCRIPT") != std::string::npos`. -/
def containsSub (hay needle : String) : Bool :=
  containsSubChars hay.data needle.data

namespace ScriptManager

/-- `ScriptManager::evalsha_ll_raw`: run `EVALSHA`; an error reply is
thrown as `runtime_error("EVALSHA error: " + msg)`. -/
def evalsha_ll_raw (sv : Server) (sha : String) : Except String Int :=
  match evalshaRaw sv sha with
  | .intVal v => .ok v
  | .errReply m => .error ("EVALSHA error: " ++ m)

structure Entry where
  body : String
  sha : String
deriving Repr, DecidableEq

/-- The `ScriptManager`'s registered scripts: name ↦ (body, sha). -/
structure State where
  entries : List (String × Entry) := []

/-- `ScriptManager::evalsha_ll`: look the name up, run the script; if the
raw call throws and the message contains `NOSCRIPT`, reload the body and
retry exactly once (a second failure propagates); any other error is
rethrown without retry.  The final `Nat` counts raw `EVALSHA` calls. -/
def evalsha_ll (hash : String → String) (sm : State) (sv : Server)
    (name : String) : Except String Int × State × Server × Nat :=
  match sm.entries.lookup name with
  | none => (.error ("Unknown script: " ++ name), sm, sv, 0)
  | some e =>
    match evalsha_ll_raw sv e.sha with
    | .ok v => (.ok v, sm, sv, 1)
    | .error msg =>
      if containsSub msg "NOSCRIPT" then
        let (h, sv1) := script_load hash e.body sv
        let sm1 : State :=
          { entries := (name, { e with sha := h }) :: eraseKey name sm.entries }
        match evalsha_ll_raw sv1 h with
        | .ok v => (.ok v, sm1, sv1, 2)
        | .error m2 => (.error m2, sm1, sv1, 2)
      else (.error msg, sm, sv, 1)

end ScriptManager

/-- `RedisFileCache::evalsha_ll` from `redis_poc_cache_hiredis_lru.cpp`:
the cache handle's own script call.  An integer reply is returned; an
error reply (hiredis `REDIS_REPLY_ERROR`) matches none of the handled
reply types and is thrown as `"EVALSHA: unexpected reply type"` — there
is no NOSCRIPT inspection and no retry.  The `Nat` counts raw `EVALSHA`
calls. -/
def cacheEvalshaLL (sv : Server) (sha : String) : Except String Int × Nat :=
  match evalshaRaw sv sha with
  | .intVal v => (.ok v, 1)
  | .errReply _ => (.error "EVALSHA: unexpected reply type", 1)

/-- Final state of a `try_evict_one` outcome (the state after the pass,
whether it returned normally or threw). -/
def evictOutcomeState (r : Except Sys (Bool × Sys)) : Sys :=
  match r with
  | .error t => t
  | .ok (_, t) => t

/-! ## Helper lemmas: decimal strings round-trip -/

theorem digitVal_digitChar {d : Nat} (h : d < 10) : digitVal (digitChar d) = some d := by
  interval_cases d <;> rfl

theorem natToDigits_ne_nil (n : Nat) : natToDigits n ≠ [] := by
  rw [natToDigits_eq]
  split <;> simp

theorem natToDigits_all_digits (n : Nat) :
    ∀ c ∈ natToDigits n, (digitVal c).isSome := by
  induction n using Nat.strong_induction_on with
  | _ n ih =>
    rw [natToDigits_eq]
    split
    · next h =>
      intro c hc
      simp only [List.mem_singleton] at hc
      subst hc
      simp [digitVal_digitChar h]
    · next h =>
      intro c hc
      rcases List.mem_append.1 hc with hm | hm
      · exact ih (n / 10) (Nat.div_lt_self (by omega) (by omega)) c hm
      · simp only [List.mem_singleton] at hm
        subst hm
        simp [digitVal_digitChar (Nat.mod_lt _ (by omega))]

theorem takeDigits_natToDigits_append (n : Nat) :
    ∀ acc rest, takeDigits (natToDigits n ++ rest) acc =
      takeDigits rest (acc * 10 ^ (natToDigits n).length + n) := by
  induction n using Nat.strong_induction_on with
  | _ n ih =>
    intro acc rest
    rw [natToDigits_eq]
    split
    · next h =>
      simp only [List.singleton_append, List.length_singleton, takeDigits,
        digitVal_digitChar h, pow_one, List.nil_append]
      rfl
    · next h =>
      rw [List.append_assoc, ih (n / 10) (Nat.div_lt_self (by omega) (by omega)),
        List.singleton_append, takeDigits, digitVal_digitChar (Nat.mod_lt _ (by omega))]
      show takeDigits rest _ = takeDigits rest _
      congr 1
      have hdm : 10 * (n / 10) + n % 10 = n := Nat.div_add_mod n 10
      simp only [List.length_append, List.length_singleton, pow_succ]
      ring_nf
      omega

theorem takeDigits_natToDigits (n : Nat) : takeDigits (natToDigits n) 0 = (n, []) := by
  have h := takeDigits_natToDigits_append n 0 []
  simpa [takeDigits] using h

theorem digit_not_space {c : Char} (h : (digitVal c).isSome) : isSpaceChar c = false := by
  unfold digitVal at h
  split at h
  · next hd =>
    unfold isSpaceChar
    simp only [Bool.or_eq_false_iff, decide_eq_false_iff_not]
    omega
  · simp at h

theorem digit_ne_minus {c : Char} (h : (digitVal c).isSome) : c ≠ '-' := by
  intro e
  subst e
  simp [digitVal] at h

theorem digit_ne_plus {c : Char} (h : (digitVal c).isSome) : c ≠ '+' := by
  intro e
  subst e
  simp [digitVal] at h

theorem stoll_encodeInt {i : Int} (h : 0 ≤ i) : stoll (encodeInt i) = some i := by
  rw [encodeInt, if_neg (by omega)]
  obtain ⟨c, cs, hcons⟩ : ∃ c cs, natToDigits i.toNat = c :: cs := by
    cases hx : natToDigits i.toNat with
    | nil => exact absurd hx (natToDigits_ne_nil _)
    | cons c cs => exact ⟨c, cs, rfl⟩
  have hcd : (digitVal c).isSome :=
    natToDigits_all_digits i.toNat c (by rw [hcons]; exact List.mem_cons_self _ _)
  have hdata : (String.mk (natToDigits i.toNat)).data = natToDigits i.toNat := rfl
  have hsw : skipWs (c :: cs) = c :: cs := by
    simp [skipWs, digit_not_space hcd]
  rw [stoll, hdata, hcons]
  simp only [stollChars, hsw, digit_ne_minus hcd, digit_ne_plus hcd, hcd,
    if_true, if_false]
  rw [← hcons, takeDigits_natToDigits]
  simp [Int.toNat_of_nonneg h]

theorem redisInt_encodeInt {i : Int} (h : 0 ≤ i) : redisInt (encodeInt i) = some i := by
  rw [encodeInt, if_neg (by omega)]
  obtain ⟨c, cs, hcons⟩ : ∃ c cs, natToDigits i.toNat = c :: cs := by
    cases hx : natToDigits i.toNat with
    | nil => exact absurd hx (natToDigits_ne_nil _)
    | cons c cs => exact ⟨c, cs, rfl⟩
  have hcd : (digitVal c).isSome :=
    natToDigits_all_digits i.toNat c (by rw [hcons]; exact List.mem_cons_self _ _)
  have hall : (c :: cs).all (fun x => (digitVal x).isSome) = true := by
    rw [List.all_eq_true]
    intro x hx
    exact natToDigits_all_digits i.toNat x (by rw [hcons]; exact hx)
  have hdata : (String.mk (natToDigits i.toNat)).data = natToDigits i.toNat := rfl
  rw [redisInt, hdata, hcons]
  simp only [digit_ne_minus hcd, if_false, hall, if_true, ite_false]
  rw [← hcons, takeDigits_natToDigits]
  simp [Int.toNat_of_nonneg h]

theorem encodeInt_data_not_empty (i : Int) : (encodeInt i).data.isEmpty = false := by
  rw [encodeInt]
  split
  · rfl
  · have hne := natToDigits_ne_nil i.toNat
    cases hx : natToDigits i.toNat with
    | nil => exact absurd hx hne
    | cons c cs => simp [String.mk, hx]

/-! ## Helper lemmas: association lists and state plumbing -/

theorem lookup_eraseKey {β : Type} {k key : String} (l : List (String × β))
    (h : k ≠ key) : (eraseKey key l).lookup k = l.lookup k := by
  induction l with
  | nil => rfl
  | cons p t ih =>
    rcases p with ⟨a, b⟩
    by_cases ha : a = key
    · subst ha
      simp only [eraseKey, List.filter] at ih ⊢
      simp only [beq_self_eq_true, Bool.not_true]
      rw [ih]
      simp [List.lookup, beq_eq_false_iff_ne.2 h]
    · simp only [eraseKey, List.filter, beq_eq_false_iff_ne.2 ha, Bool.not_false] at ih ⊢
      by_cases hk : k = a
      · subst hk; simp [List.lookup]
      · simp [List.lookup, beq_eq_false_iff_ne.2 hk, ih]

theorem lookup_insert_self {β : Type} (k : String) (v : β) (l : List (String × β)) :
    (((k, v) :: eraseKey k l).lookup k) = some v := by
  simp [List.lookup]

theorem lookup_insert_other {β : Type} {k k' : String} (v : β) (l : List (String × β))
    (h : k' ≠ k) : (((k, v) :: eraseKey k l).lookup k') = l.lookup k' := by
  simp [List.lookup, beq_eq_false_iff_ne.2 h, lookup_eraseKey l h]

theorem lockFor_setLock_self (key : String) (l : KeyLocks) (s : Sys) :
    lockFor key (setLock key l s) = l := by
  simp [lockFor, setLock, lookup_insert_self]

theorem lockFor_setLock_other {k key : String} (l : KeyLocks) (s : Sys)
    (h : k ≠ key) : lockFor k (setLock key l s) = lockFor k s := by
  simp [lockFor, setLock, lookup_insert_other _ _ h]

theorem lookup_eraseKey_self {β : Type} (key : String) (l : List (String × β)) :
    (eraseKey key l).lookup key = none := by
  induction l with
  | nil => rfl
  | cons p t ih =>
    rcases p with ⟨a, b⟩
    by_cases ha : a = key
    · subst ha
      simpa [eraseKey, List.filter] using ih
    · simpa [eraseKey, List.filter, beq_eq_false_iff_ne.2 ha, List.lookup,
        beq_eq_false_iff_ne.2 (fun e => ha e.symm)] using ih

/-- The write-lock acquire script succeeds on a state with no write lock
and no positive reader count, installing the token. -/
theorem luaWriteLockAcquire_success (token : String) (l : KeyLocks)
    (hwl : l.wl = none) (hrd : l.rd.getD 0 ≤ 0) :
    luaWriteLockAcquire token l = (1, { l with wl := some token }) := by
  rw [luaWriteLockAcquire, hwl]
  simp only [Option.isSome_none, Bool.false_eq_true, if_false, Option.isNone_none, if_true]
  rw [if_neg (by omega)]

/-- The write-lock release script, run with the token currently stored,
deletes the write-lock key. -/
theorem luaWriteLockRelease_self (token : String) (l : KeyLocks)
    (h : l.wl = some token) :
    luaWriteLockRelease token l = (1, { l with wl := none }) := by
  rw [luaWriteLockRelease, h]
  simp

/-- `release_write` with the stored token clears the write-lock key of
that key and touches nothing else per `lockFor`. -/
theorem release_write_clears (key token : String) (s : Sys)
    (h : (lockFor key s).wl = some token) :
    lockFor key (release_write false key token s) = { lockFor key s with wl := none } := by
  rw [release_write, luaWriteLockRelease_self token _ h]
  simp only [if_false]
  exact lockFor_setLock_self key _ s


@[simp] theorem setLock_files (key : String) (l : KeyLocks) (s : Sys) :
    (setLock key l s).files = s.files := rfl
@[simp] theorem setLock_scratch (key : String) (l : KeyLocks) (s : Sys) :
    (setLock key l s).scratch = s.scratch := rfl
@[simp] theorem setLock_lru (key : String) (l : KeyLocks) (s : Sys) :
    (setLock key l s).lru = s.lru := rfl
@[simp] theorem setLock_sizes (key : String) (l : KeyLocks) (s : Sys) :
    (setLock key l s).sizes = s.sizes := rfl
@[simp] theorem setLock_keyset (key : String) (l : KeyLocks) (s : Sys) :
    (setLock key l s).keyset = s.keyset := rfl
@[simp] theorem setLock_total (key : String) (l : KeyLocks) (s : Sys) :
    (setLock key l s).total = s.total := rfl
@[simp] theorem setLock_purgeMtx (key : String) (l : KeyLocks) (s : Sys) :
    (setLock key l s).purgeMtx = s.purgeMtx := rfl

theorem eraseKey_cons_self {β : Type} (key : String) (x : β) (t : List (String × β)) :
    eraseKey key ((key, x) :: t) = eraseKey key t := by
  simp [eraseKey, List.filter]

/-- `ensure_capacity` does nothing (beyond possibly taking the purge
mutex) when the purge mutex is already held or the recorded total does
not exceed the bound. -/
theorem ensure_capacity_noop (nowT maxB : Int) (s : Sys)
    (h : s.purgeMtx = true ∨ ¬ (get_total_bytes s > maxB)) :
    ensure_capacity nowT maxB s = s ∨
      ensure_capacity nowT maxB s = { s with purgeMtx := true } := by
  rw [ensure_capacity]
  by_cases hm : maxB ≤ 0
  · simp [hm]
  · simp only [hm, if_false]
    by_cases hp : s.purgeMtx
    · simp [hp]
    · simp only [hp, if_false]
      right
      rcases h with hp2 | htot
      · exact absurd hp2 hp
      · rw [purgeLoop]
        have hng : ¬ get_total_bytes { s with purgeMtx := true } > maxB := htot
        simp only [hng, if_false]
        simp

/-! ## Claim theorems -/

/-- **C2.** For every key, in every coordination state reachable from idle
by the read-lock acquire/release and write-lock acquire/release scripts:
the write-lock key has at most one holder, and reader count > 0 implies
the write-lock key is absent; moreover the write-lock acquire script
refuses (leaving the state unchanged) when readers are present, and the
read-lock acquire script refuses when the write-lock key exists. -/
theorem c2_lock_invariant :
    (∀ l : KeyLocks, ReachableLock l →
      (∀ t1 t2 : String, l.wl = some t1 → l.wl = some t2 → t1 = t2) ∧
      (∀ r : Int, l.rd = some r → 0 < r → l.wl = none)) ∧
    (∀ (l : KeyLocks) (tok : String), 0 < l.rd.getD 0 →
      (luaWriteLockAcquire tok l).1 ≠ 1 ∧ (luaWriteLockAcquire tok l).2 = l) ∧
    (∀ l : KeyLocks, l.wl.isSome → luaReadLockAcquire l = (0, l)) := by
  refine ⟨?_, ?_, ?_⟩
  · intro l hreach
    refine ⟨fun t1 t2 h1 h2 => by rw [h1] at h2; exact Option.some.inj h2, ?_⟩
    induction hreach with
    | idle => intro r hr; simp [idleLocks] at hr
    | @step l l' _ hstep ih =>
      cases hstep with
      | readAcq =>
        intro r hr hpos
        simp only [luaReadLockAcquire] at hr ⊢
        by_cases hw : l.wl.isSome
        · simp only [hw, if_true] at hr ⊢; exact ih r hr hpos
        · simp only [hw, if_false] at hr ⊢
          exact Option.not_isSome_iff_eq_none.1 hw
      | readRel =>
        intro r hr hpos
        simp only [luaReadLockRelease] at hr ⊢
        by_cases hc : l.rd.getD 0 - 1 ≤ 0
        · simp only [hc, if_true] at hr; exact absurd hr (by simp)
        · simp only [hc, if_false] at hr ⊢
          cases hrd : l.rd with
          | none => rw [hrd] at hc; simp at hc
          | some v =>
            rw [hrd] at hc
            simp only [Option.getD_some] at hc
            exact ih v hrd (by omega)
      | writeAcq tok =>
        intro r hr hpos
        simp only [luaWriteLockAcquire] at hr ⊢
        cases hwl : l.wl with
        | some w =>
          simp only [hwl, Option.isSome_some, if_true] at hr ⊢
          exfalso
          have hrd : l.rd = some r := hr
          rw [ih r hrd hpos] at hwl
          simp at hwl
        | none =>
          simp only [hwl, Option.isSome_none, Bool.false_eq_true, if_false,
            Option.isNone_none, if_true] at hr ⊢
          by_cases hrc : l.rd.getD 0 > 0
          · simp only [hrc, if_true] at hr ⊢
            exact ih r hr hpos
          · exfalso
            simp only [hrc, if_false] at hr
            have hlr : l.rd = some r := hr
            rw [hlr] at hrc
            simp only [Option.getD_some] at hrc
            omega
      | writeRel tok =>
        intro r hr hpos
        simp only [luaWriteLockRelease] at hr ⊢
        cases hwl : l.wl with
        | none => simp [hwl]
        | some cur =>
          by_cases he : cur = tok
          · simp [hwl, he]
          · simp only [hwl, he, if_false] at hr ⊢
            have hrd : l.rd = some r := hr
            rw [ih r hrd hpos] at hwl
            simp at hwl
  · intro l tok hrd
    simp only [luaWriteLockAcquire]
    by_cases hw : l.wl.isSome
    · simp [hw]
    · simp [hw, hrd]
  · intro l hw
    simp [luaReadLockAcquire, hw]

/-- Witness for C2 at concrete inputs: the idle state is reachable and
satisfies the invariant; a state with two readers refuses the write-lock
acquire; a held write lock refuses the read-lock acquire. -/
theorem c2_lock_invariant_witness :
    (∀ r : Int, idleLocks.rd = some r → 0 < r → idleLocks.wl = none) ∧
    (luaWriteLockAcquire "t" ⟨none, some 2, false⟩).1 ≠ 1 ∧
    luaReadLockAcquire ⟨some "w", none, false⟩ = (0, ⟨some "w", none, false⟩) :=
  ⟨(c2_lock_invariant.1 idleLocks ReachableLock.idle).2,
   (c2_lock_invariant.2.1 ⟨none, some 2, false⟩ "t" (by decide)).1,
   c2_lock_invariant.2.2 ⟨some "w", none, false⟩ (by decide)⟩

/-- **C4.** The write-lock release script deletes the write-lock key
exactly when its stored value equals the supplied token; on a token
mismatch (or an absent key) it returns 0 leaving the state unchanged;
and `release_write` never raises — a transport failure is swallowed,
leaving the state as it was. -/
theorem c4_write_release (l : KeyLocks) (token : String) :
    (l.wl = some token →
      luaWriteLockRelease token l = (1, { l with wl := none })) ∧
    (l.wl ≠ some token → luaWriteLockRelease token l = (0, l)) ∧
    (∀ (s : Sys) (key : String), release_write true key token s = s) := by
  refine ⟨?_, ?_, fun s key => rfl⟩
  · intro h
    simp [luaWriteLockRelease, h]
  · intro h
    cases hwl : l.wl with
    | none => simp [luaWriteLockRelease, hwl]
    | some cur =>
      have : cur ≠ token := fun e => h (by rw [hwl, e])
      simp [luaWriteLockRelease, hwl, this]

/-- Witness for C4 at concrete inputs: matching token deletes; stale
token leaves the lock in place; a failed transport leaves the state
unchanged and raises nothing. -/
theorem c4_write_release_witness :
    luaWriteLockRelease "t" ⟨some "t", some 1, false⟩ = (1, ⟨none, some 1, false⟩) ∧
    luaWriteLockRelease "stale" ⟨some "t", none, false⟩ = (0, ⟨some "t", none, false⟩) ∧
    release_write true "k" "t" {} = {} :=
  ⟨(c4_write_release ⟨some "t", some 1, false⟩ "t").1 rfl,
   (c4_write_release ⟨some "t", none, false⟩ "stale").2.1 (by decide),
   (c4_write_release ⟨some "t", none, false⟩ "stale").2.2 {} "k"⟩

/-- **C9.** A key that is empty, begins with `.`, or contains `/` makes
`exists`, `read_bytes` and `write_bytes_create` raise the
invalid-argument error before any filesystem or coordination call (state
untouched, effect list empty); a key failing none of the three tests is
not rejected by validation. -/
theorem c9_key_validation (key : String) :
    ((key.data.isEmpty || key.data.headD ' ' == '.' || key.data.contains '/') = true →
      validate_key key = false ∧
      (∀ s : Sys, exists_op key s = (.error .invalidKey, [])) ∧
      (∀ (f : RFaults) (t : Int) (s : Sys),
        read_bytes f t key s = (.error .invalidKey, s, [])) ∧
      (∀ (f : WFaults) (tok : String) (t mb : Int) (d : String) (s : Sys),
        write_bytes_create f tok t mb key d s = (.error .invalidKey, s, []))) ∧
    ((key.data.isEmpty || key.data.headD ' ' == '.' || key.data.contains '/') = false →
      validate_key key = true) := by
  constructor
  · intro h
    have hv : validate_key key = false := by unfold validate_key; rw [h]; rfl
    refine ⟨hv, ?_, ?_, ?_⟩
    · intro s; simp [exists_op, hv]
    · intro f t s; simp [read_bytes, hv]
    · intro f tok t mb d s; simp [write_bytes_create, hv]
  · intro h
    unfold validate_key
    rw [h]
    rfl

/-- Witness for C9: the dot-prefixed key `".x"` is rejected by all three
operations with no effects; the plain key `"k0"` passes validation. -/
theorem c9_key_validation_witness :
    exists_op ".x" {} = (.error .invalidKey, []) ∧
    read_bytes {} 0 ".x" {} = (.error .invalidKey, {}, []) ∧
    write_bytes_create {} "t" 0 0 ".x" "d" {} = (.error .invalidKey, {}, []) ∧
    validate_key "k0" = true :=
  ⟨((c9_key_validation ".x").1 (by decide)).2.1 {},
   ((c9_key_validation ".x").1 (by decide)).2.2.1 {} 0 {},
   ((c9_key_validation ".x").1 (by decide)).2.2.2 {} "t" 0 0 "d" {},
   (c9_key_validation "k0").2 (by decide)⟩

/-- **C10.** `get_total_bytes` returns 0 when the total-bytes key is
absent, empty, or fails to parse as an integer; in such a state
`ensure_capacity` runs no eviction at all — the state is returned
unchanged except possibly for taking the purge mutex — even if the
published files exceed `max_bytes`. -/
theorem c10_total_bytes_fallback (s : Sys) (nowT maxB : Int)
    (h : s.total = none ∨
      ∃ str, s.total = some str ∧ (str.data.isEmpty = true ∨ stoll str = none)) :
    get_total_bytes s = 0 ∧
    (ensure_capacity nowT maxB s = s ∨
      ensure_capacity nowT maxB s = { s with purgeMtx := true }) := by
  have h0 : get_total_bytes s = 0 := by
    rcases h with h | ⟨str, hs, he | hp⟩
    · simp [get_total_bytes, h]
    · simp [get_total_bytes, hs, he]
    · simp only [get_total_bytes, hs]
      split
      · rfl
      · simp [hp]
  refine ⟨h0, ?_⟩
  rw [ensure_capacity]
  by_cases hm : maxB ≤ 0
  · simp [hm]
  · simp only [hm, if_false]
    by_cases hp : s.purgeMtx
    · simp [hp]
    · simp only [hp, if_false]
      right
      have hts : get_total_bytes { s with purgeMtx := true } = 0 := h0
      have hcond : ¬ ((0 : Int) > maxB) := by omega
      rw [purgeLoop]
      simp only [hts, hcond, if_false]
      simp

/-- Witness for C10: with a garbage total value and a 3-byte file
exceeding `max_bytes = 1`, the total reads as 0 and `ensure_capacity`
deletes nothing (it only takes the purge mutex). -/
theorem c10_total_bytes_fallback_witness :
    get_total_bytes
        { files := [("k", "xyz")], sizes := [("k", 3)], lru := [("k", 0)],
          total := some "junk" } = 0 ∧
    (ensure_capacity 9 1
        { files := [("k", "xyz")], sizes := [("k", 3)], lru := [("k", 0)],
          total := some "junk" } =
        { files := [("k", "xyz")], sizes := [("k", 3)], lru := [("k", 0)],
          total := some "junk" } ∨
      ensure_capacity 9 1
        { files := [("k", "xyz")], sizes := [("k", 3)], lru := [("k", 0)],
          total := some "junk" } =
        { files := [("k", "xyz")], sizes := [("k", 3)], lru := [("k", 0)],
          total := some "junk", purgeMtx := true }) :=
  c10_total_bytes_fallback
    { files := [("k", "xyz")], sizes := [("k", 3)], lru := [("k", 0)],
      total := some "junk" } 9 1
    (Or.inr ⟨"junk", rfl, Or.inr (by decide)⟩)

/-- **C6 (counterexample).** The cache handle in
`redis_poc_cache_hiredis_lru.cpp` invokes its lock scripts through its own
`evalsha_ll`, which has no NOSCRIPT handling: with the script evicted
from the server's cache, the raw reply is a NOSCRIPT error, yet the call
surfaces an exception after exactly one raw `EVALSHA` — no reload, no
retry — refuting the claim for lock-script invocations by a cache
handle. -/
theorem c6_counterexample :
    evalshaRaw {} "a1b2" = .errReply "NOSCRIPT No matching script. Please use EVAL." ∧
    cacheEvalshaLL {} "a1b2" = (.error "EVALSHA: unexpected reply type", 1) :=
  ⟨rfl, rfl⟩

/-- **C6 (amended).** `ScriptManager::evalsha_ll` reloads the script body
and retries exactly once when the raw call fails with a NOSCRIPT message
(two raw calls, the reloaded identifier now cached and recorded), and
surfaces any other script error — and any second failure — without
further retry; the `RedisFileCache::evalsha_ll` of
`redis_poc_cache_hiredis_lru.cpp`, by contrast, always performs exactly
one raw call and surfaces every error reply. -/
theorem c6_noscript_reload (hash : String → String) (sm : ScriptManager.State)
    (sv : Server) (name body sha : String)
    (hentry : sm.entries.lookup name = some ⟨body, sha⟩) :
    (∀ msg, ScriptManager.evalsha_ll_raw sv sha = .error msg →
      containsSub msg "NOSCRIPT" = true →
      (ScriptManager.evalsha_ll hash sm sv name).2.2.2 = 2 ∧
      ((ScriptManager.evalsha_ll hash sm sv name).2.2.1).cache.contains (hash body) = true ∧
      ((ScriptManager.evalsha_ll hash sm sv name).2.1).entries.lookup name =
        some ⟨body, hash body⟩) ∧
    (∀ msg, ScriptManager.evalsha_ll_raw sv sha = .error msg →
      containsSub msg "NOSCRIPT" = false →
      ScriptManager.evalsha_ll hash sm sv name = (.error msg, sm, sv, 1)) ∧
    (∀ v, ScriptManager.evalsha_ll_raw sv sha = .ok v →
      ScriptManager.evalsha_ll hash sm sv name = (.ok v, sm, sv, 1)) ∧
    (∀ sh : String, (cacheEvalshaLL sv sh).2 = 1) := by
  refine ⟨?_, ?_, ?_, ?_⟩
  · intro msg hraw hns
    simp only [ScriptManager.evalsha_ll, hentry, hraw, hns, if_true, script_load]
    split
    · refine ⟨rfl, ?_, lookup_insert_self name ⟨body, hash body⟩ sm.entries⟩
      by_cases hc : sv.cache.contains (hash body) <;>
        by_cases hm : hash body ∈ sv.cache <;> simp [hc, hm]
    · refine ⟨rfl, ?_, lookup_insert_self name ⟨body, hash body⟩ sm.entries⟩
      by_cases hc : sv.cache.contains (hash body) <;>
        by_cases hm : hash body ∈ sv.cache <;> simp [hc, hm]
  · intro msg hraw hns
    simp [ScriptManager.evalsha_ll, hentry, hraw, hns]
  · intro v hraw
    simp [ScriptManager.evalsha_ll, hentry, hraw]
  · intro sh
    rw [cacheEvalshaLL]
    cases evalshaRaw sv sh <;> rfl

/-- Witness for C6 (amended): a manager holding one script whose
identifier is not in the server cache reloads and succeeds with exactly
two raw calls; a wrong-type style error is surfaced after one call. -/
theorem c6_noscript_reload_witness :
    (ScriptManager.evalsha_ll id { entries := [("ra", ⟨"bdy", "old"⟩)] } {} "ra").2.2.2 = 2 ∧
    ScriptManager.evalsha_ll id { entries := [("rb", ⟨"bdy2", "s2"⟩)] }
        { cache := ["s2"], scriptErr := fun _ => some "WRONGTYPE" } "rb" =
      (.error "EVALSHA error: WRONGTYPE", { entries := [("rb", ⟨"bdy2", "s2"⟩)] },
        { cache := ["s2"], scriptErr := fun _ => some "WRONGTYPE" }, 1) ∧
    (cacheEvalshaLL {} "zz").2 = 1 :=
  ⟨(c6_noscript_reload id { entries := [("ra", ⟨"bdy", "old"⟩)] } {} "ra" "bdy" "old"
      rfl).1 "EVALSHA error: NOSCRIPT No matching script. Please use EVAL." rfl
      (by decide) |>.1,
   (c6_noscript_reload id { entries := [("rb", ⟨"bdy2", "s2"⟩)] }
      { cache := ["s2"], scriptErr := fun _ => some "WRONGTYPE" } "rb" "bdy2" "s2"
      rfl).2.1 "EVALSHA error: WRONGTYPE" rfl (by decide),
   (c6_noscript_reload id { entries := [("ra", ⟨"bdy", "old"⟩)] } {} "ra" "bdy" "old"
      rfl).2.2.2 "zz"⟩

/-- The retry loop of `read_bytes_blocking` always runs at least one
attempt as soon as it has fuel, at any start index. -/
theorem rb_loop_attempts_pos (att : Nat → ReadAttempt) (dl : Nat → Bool) :
    ∀ (i fuel : Nat), 1 ≤ fuel → 1 ≤ (read_bytes_blocking_loop att dl i fuel).2.1 := by
  intro i fuel hf
  cases fuel with
  | zero => omega
  | succ n =>
    rw [read_bytes_blocking_loop]
    cases att i with
    | rSuccess b => simp
    | rOtherErr => simp
    | rBusy =>
      by_cases hdl : dl i
      · simp [hdl]
      · rcases hres : read_bytes_blocking_loop att dl (i + 1) n with ⟨r, n2, sl⟩
        simp [hdl, hres]
    | rNotFound =>
      by_cases hdl : dl i
      · simp [hdl]
      · rcases hres : read_bytes_blocking_loop att dl (i + 1) n with ⟨r, n2, sl⟩
        simp [hdl, hres]

/-- Same for `write_bytes_create_blocking`. -/
theorem wb_loop_attempts_pos (att : Nat → WriteAttempt) (dl : Nat → Bool) :
    ∀ (i fuel : Nat), 1 ≤ fuel →
      1 ≤ (write_bytes_create_blocking_loop att dl i fuel).2.1 := by
  intro i fuel hf
  cases fuel with
  | zero => omega
  | succ n =>
    rw [write_bytes_create_blocking_loop]
    cases att i with
    | wSuccess => simp
    | wAlreadyExists => simp
    | wOtherErr => simp
    | wBusy =>
      by_cases hdl : dl i
      · simp [hdl]
      · rcases hres : write_bytes_create_blocking_loop att dl (i + 1) n with ⟨r, n2, sl⟩
        simp [hdl, hres]

/-- With transiently failing attempts and a monotone deadline test, the
read loop ends in a timeout once the deadline holds within the fuel. -/
theorem rb_loop_timedOut (att : Nat → ReadAttempt) (dl : Nat → Bool)
    (hatt : ∀ i, att i = .rBusy ∨ att i = .rNotFound)
    (hmono : ∀ i j, i ≤ j → dl i = true → dl j = true) :
    ∀ (fuel i k : Nat), dl k = true → k < i + fuel →
      (read_bytes_blocking_loop att dl i fuel).1 = .timedOut := by
  intro fuel
  induction fuel with
  | zero => intro i k _ _; rfl
  | succ n ih =>
    intro i k hk hlt
    rw [read_bytes_blocking_loop]
    have hstep : ∀ (h : dl i = false), i < k := by
      intro h
      by_contra hc
      have : dl i = true := hmono k i (by omega) hk
      rw [h] at this
      exact Bool.false_ne_true this
    rcases hatt i with ha | ha <;> rw [ha]
    · by_cases hdl : dl i
      · simp [hdl]
      · have hik := hstep (Bool.not_eq_true _ ▸ eq_false_of_ne_true hdl)
        rcases hres : read_bytes_blocking_loop att dl (i + 1) n with ⟨r, n2, sl⟩
        have := ih (i + 1) k hk (by omega)
        rw [hres] at this
        simp [hdl, hres, this]
    · by_cases hdl : dl i
      · simp [hdl]
      · have hik := hstep (Bool.not_eq_true _ ▸ eq_false_of_ne_true hdl)
        rcases hres : read_bytes_blocking_loop att dl (i + 1) n with ⟨r, n2, sl⟩
        have := ih (i + 1) k hk (by omega)
        rw [hres] at this
        simp [hdl, hres, this]

/-- **C7.** Both blocking wrappers always run at least one non-blocking
attempt (the deadline is only tested after a failed attempt);
`read_bytes_blocking` retries — with a backoff sleep — after a `Busy`
and after a `NotFound` failure, surfaces any other error immediately
after the first attempt, and returns false (timed out) once the deadline
test holds. -/
theorem c7_blocking_wrappers :
    (∀ (att : Nat → ReadAttempt) (dl : Nat → Bool) (fuel : Nat), 1 ≤ fuel →
      1 ≤ (read_bytes_blocking att dl fuel).2.1) ∧
    (∀ (att : Nat → WriteAttempt) (dl : Nat → Bool) (fuel : Nat), 1 ≤ fuel →
      1 ≤ (write_bytes_create_blocking att dl fuel).2.1) ∧
    (∀ (att : Nat → ReadAttempt) (dl : Nat → Bool) (fuel : Nat), 2 ≤ fuel →
      (att 0 = ReadAttempt.rBusy ∨ att 0 = ReadAttempt.rNotFound) → dl 0 = false →
      2 ≤ (read_bytes_blocking att dl fuel).2.1 ∧
        1 ≤ (read_bytes_blocking att dl fuel).2.2) ∧
    (∀ (att : Nat → ReadAttempt) (dl : Nat → Bool) (fuel : Nat), 1 ≤ fuel →
      att 0 = ReadAttempt.rOtherErr →
      read_bytes_blocking att dl fuel = (.surfacedErr, 1, 0)) ∧
    (∀ (att : Nat → ReadAttempt) (dl : Nat → Bool) (fuel k : Nat),
      (∀ i, att i = ReadAttempt.rBusy ∨ att i = ReadAttempt.rNotFound) →
      (∀ i j, i ≤ j → dl i = true → dl j = true) → dl k = true → k < fuel →
      (read_bytes_blocking att dl fuel).1 = .timedOut) := by
  refine ⟨?_, ?_, ?_, ?_, ?_⟩
  · intro att dl fuel hf
    exact rb_loop_attempts_pos att dl 0 fuel hf
  · intro att dl fuel hf
    exact wb_loop_attempts_pos att dl 0 fuel hf
  · intro att dl fuel hf h0 hdl
    cases fuel with
    | zero => omega
    | succ n =>
      rw [read_bytes_blocking, read_bytes_blocking_loop]
      have hrec := rb_loop_attempts_pos att dl 1 n (by omega)
      rcases hres : read_bytes_blocking_loop att dl 1 n with ⟨r, n2, sl⟩
      rw [hres] at hrec
      have hn2 : 1 ≤ n2 := hrec
      rcases h0 with h0 | h0 <;> rw [h0] <;> simp [hdl, hres] <;> omega
  · intro att dl fuel hf h0
    cases fuel with
    | zero => omega
    | succ n =>
      rw [read_bytes_blocking, read_bytes_blocking_loop, h0]
  · intro att dl fuel k hatt hmono hk hlt
    exact rb_loop_timedOut att dl hatt hmono fuel 0 k hk (by omega)

/-- Witness for C7 at concrete oracles: an immediately successful read
(one attempt); an immediately successful create; a busy first attempt
with a later deadline (two attempts, one sleep); an immediate hard error
(surfaced after one attempt); a perpetually busy key with the deadline
holding from attempt 1 on (timed out). -/
theorem c7_blocking_wrappers_witness :
    1 ≤ (read_bytes_blocking (fun _ => .rSuccess "v") (fun _ => true) 1).2.1 ∧
    1 ≤ (write_bytes_create_blocking (fun _ => .wSuccess) (fun _ => true) 1).2.1 ∧
    (2 ≤ (read_bytes_blocking (fun _ => .rBusy) (fun i => decide (1 ≤ i)) 3).2.1 ∧
      1 ≤ (read_bytes_blocking (fun _ => .rBusy) (fun i => decide (1 ≤ i)) 3).2.2) ∧
    read_bytes_blocking (fun _ => .rOtherErr) (fun _ => false) 2 = (.surfacedErr, 1, 0) ∧
    (read_bytes_blocking (fun _ => .rNotFound) (fun i => decide (1 ≤ i)) 3).1 = .timedOut :=
  ⟨c7_blocking_wrappers.1 (fun _ => .rSuccess "v") (fun _ => true) 1 (by omega),
   c7_blocking_wrappers.2.1 (fun _ => .wSuccess) (fun _ => true) 1 (by omega),
   c7_blocking_wrappers.2.2.1 (fun _ => .rBusy) (fun i => decide (1 ≤ i)) 3 (by omega)
     (Or.inl rfl) (by decide),
   c7_blocking_wrappers.2.2.2.1 (fun _ => .rOtherErr) (fun _ => false) 2 (by omega) rfl,
   c7_blocking_wrappers.2.2.2.2 (fun _ => .rNotFound) (fun i => decide (1 ≤ i)) 3 1
     (fun _ => Or.inr rfl)
     (by
       intro i j hij hi
       simp only [decide_eq_true_eq] at hi ⊢
       omega)
     (by decide) (by omega)⟩

/-- **C8.** When `read_bytes` has acquired the read lock and the
subsequent open fails (file absent or another open error) or a read
fails, the error branch releases the read lock and throws, and the
surrounding catch handler releases it again before rethrowing: the
release script runs exactly twice for the single acquisition. -/
theorem c8_double_release (f : RFaults) (nowT : Int) (key : String) (s : Sys)
    (hv : validate_key key = true)
    (hw : (lockFor key s).wl = none)
    (hfail : s.files.lookup key = none ∨ f.openFail = true ∨ f.readFail = true) :
    (∃ e, (read_bytes f nowT key s).1 = .error e) ∧
    (read_bytes f nowT key s).2.2.count Ev.evReleaseRead = 2 := by
  have hacq : acquire_read key s =
      (1, setLock key { lockFor key s with
        rd := some ((lockFor key s).rd.getD 0 + 1) } s) := by
    rw [acquire_read, luaReadLockAcquire]
    simp [hw]
  have hfiles : (setLock key { lockFor key s with
      rd := some ((lockFor key s).rd.getD 0 + 1) } s).files = s.files := rfl
  rw [read_bytes]
  simp only [hv, Bool.not_true, Bool.false_eq_true, if_false, hacq, hfiles,
    ne_eq, eq_self_iff_true, not_true, if_true]
  cases hlook : s.files.lookup key with
  | none =>
    simp only [hlook]
    exact ⟨⟨.notFound, rfl⟩, by decide⟩
  | some b =>
    by_cases ho : f.openFail
    · simp only [hlook, ho]
      exact ⟨⟨.ioErr, rfl⟩, by decide⟩
    · have ho' : f.openFail = false := by simpa using ho
      by_cases hr : f.readFail
      · simp only [hlook, ho', hr, if_true]
        exact ⟨⟨.ioErr, rfl⟩, by decide⟩
      · exfalso
        rcases hfail with hx | hx | hx
        · rw [hlook] at hx; exact Option.noConfusion hx
        · rw [ho'] at hx; exact Bool.false_ne_true hx
        · rw [hx] at hr; exact hr rfl

/-- Witness for C8: reading an absent key from an otherwise idle cache
fails with NotFound and runs the read-lock release script twice. -/
theorem c8_double_release_witness :
    (∃ e, (read_bytes {} 7 "k" {}).1 = .error e) ∧
    (read_bytes {} 7 "k" {}).2.2.count Ev.evReleaseRead = 2 :=
  c8_double_release {} 7 "k" {} (by decide) rfl (Or.inl rfl)

/-- Semantics of the `CAN_EVICT` script: it returns 1 — setting the
fence — exactly when no write lock, no positive reader count and no
fence are present; any refusal leaves the state unchanged. -/
theorem luaCanEvict_spec (l : KeyLocks) :
    ((luaCanEvict l).1 = 1 →
      l.wl = none ∧ l.rd.getD 0 ≤ 0 ∧ l.fence = false ∧
      (luaCanEvict l).2 = { l with fence := true }) ∧
    ((luaCanEvict l).1 ≠ 1 → (luaCanEvict l).2 = l) := by
  rcases l with ⟨wl, rd, fence⟩
  rw [luaCanEvict]
  cases wl with
  | some w => simp
  | none =>
    simp only [Option.isSome_none, Bool.false_eq_true, if_false]
    by_cases hrd : rd.getD 0 > 0
    · simp [hrd]
    · simp only [hrd, if_false]
      cases fence with
      | true => simp
      | false =>
        constructor
        · intro _
          exact ⟨trivial, by omega, rfl, rfl⟩
        · intro hne
          exact absurd rfl hne

/-- **C5.** In a `try_evict_one` pass over the LRU head `key`: the
`CAN_EVICT` script sets the eviction fence (in the same atomic script as
the checks) only when the write-lock key is absent, the reader count is
not positive, and the fence was not already present; when the script
refuses, the pass leaves the coordination state unchanged, refreshes the
victim's LRU score to now, and reports no victim. -/
theorem c5_evict_fence (nowT : Int) (s : Sys) (key : String) (sc : Int)
    (hhead : zrangeHead s.lru = some (key, sc)) :
    ((luaCanEvict (lockFor key s)).1 = 1 →
      (lockFor key s).wl = none ∧ (lockFor key s).rd.getD 0 ≤ 0 ∧
      (lockFor key s).fence = false ∧
      (luaCanEvict (lockFor key s)).2 = { lockFor key s with fence := true }) ∧
    ((luaCanEvict (lockFor key s)).1 ≠ 1 →
      (luaCanEvict (lockFor key s)).2 = lockFor key s) ∧
    ((lockFor key (evictOutcomeState (try_evict_one nowT s))).fence = true →
      (lockFor key s).fence = true ∨
        ((lockFor key s).wl = none ∧ (lockFor key s).rd.getD 0 ≤ 0)) ∧
    (∀ sz, s.sizes.lookup key = some sz → (luaCanEvict (lockFor key s)).1 ≠ 1 →
      ∃ s', try_evict_one nowT s = .ok (false, s') ∧
        s'.files = s.files ∧ s'.scratch = s.scratch ∧
        s'.lru = (key, nowT) :: eraseKey key s.lru ∧
        (∀ k, lockFor k s' = lockFor k s) ∧
        s'.sizes = s.sizes ∧ s'.keyset = s.keyset ∧ s'.total = s.total) := by
  have hscript := luaCanEvict_spec (lockFor key s)
  refine ⟨hscript.1, hscript.2, ?_, ?_⟩
  · intro hfset
    by_cases hok : (luaCanEvict (lockFor key s)).1 = 1
    · exact Or.inr ⟨(hscript.1 hok).1, (hscript.1 hok).2.1⟩
    · left
      rw [try_evict_one] at hfset
      simp only [hhead] at hfset
      cases hsz : s.sizes.lookup key with
      | none =>
        simp only [hsz] at hfset
        exact hfset
      | some sz =>
        simp only [hsz] at hfset
        rcases hce : luaCanEvict (lockFor key s) with ⟨okv, l⟩
        simp only [hce] at hfset
        have hl : l = lockFor key s := by
          have h2 := hscript.2 hok
          rw [hce] at h2
          exact h2
        have hok2 : okv ≠ 1 := by
          intro e
          apply hok
          rw [hce]
          exact e
        rw [if_pos hok2] at hfset
        have hlk : lockFor key (evictOutcomeState
            (Except.ok (false, touch_lru key nowT (setLock key l s)))) = l := by
          show lockFor key (setLock key l s) = l
          exact lockFor_setLock_self key l s
        rw [hlk, hl] at hfset
        exact hfset
  · intro sz hsz hok
    rw [try_evict_one]
    simp only [hhead, hsz]
    rcases hce : luaCanEvict (lockFor key s) with ⟨okv, l⟩
    simp only [hce]
    have hl : l = lockFor key s := by
      have h2 := hscript.2 hok
      rw [hce] at h2
      exact h2
    have hok2 : okv ≠ 1 := by
      intro e
      apply hok
      rw [hce]
      exact e
    rw [if_pos hok2]
    refine ⟨touch_lru key nowT (setLock key l s), rfl, rfl, rfl, rfl, ?_, rfl, rfl, rfl⟩
    intro k
    show lockFor k (setLock key l s) = lockFor k s
    by_cases hk : k = key
    · subst hk
      rw [lockFor_setLock_self, hl]
    · exact lockFor_setLock_other _ _ hk

/-- Witness for C5: the LRU head `"k"` is write-locked, so the fence is
refused, the pass reports no victim, and `"k"`'s LRU score becomes the
current time while the coordination state is untouched. -/
theorem c5_evict_fence_witness :
    ((luaCanEvict (lockFor "k"
        { lru := [("k", 5)], sizes := [("k", 3)],
          locks := [("k", ⟨some "w", none, false⟩)] })).1 ≠ 1 →
      (luaCanEvict (lockFor "k"
        { lru := [("k", 5)], sizes := [("k", 3)],
          locks := [("k", ⟨some "w", none, false⟩)] })).2 =
        lockFor "k"
          { lru := [("k", 5)], sizes := [("k", 3)],
            locks := [("k", ⟨some "w", none, false⟩)] }) ∧
    ∃ s', try_evict_one 9
        { lru := [("k", 5)], sizes := [("k", 3)],
          locks := [("k", ⟨some "w", none, false⟩)] } = .ok (false, s') ∧
      s'.files = [] ∧ s'.scratch = [] ∧ s'.lru = [("k", 9)] ∧
      (∀ k, lockFor k s' = lockFor k
        { lru := [("k", 5)], sizes := [("k", 3)],
          locks := [("k", ⟨some "w", none, false⟩)] }) ∧
      s'.sizes = [("k", 3)] ∧ s'.keyset = [] ∧ s'.total = none := by
  have h := c5_evict_fence 9
    { lru := [("k", 5)], sizes := [("k", 3)],
      locks := [("k", ⟨some "w", none, false⟩)] } "k" 5 rfl
  refine ⟨h.2.1, ?_⟩
  rcases h.2.2.2 3 rfl (by decide) with ⟨s', h1, h2, h3, h4, h5, h6, h7, h8⟩
  exact ⟨s', h1, h2, h3, by simpa [eraseKey] using h4, h5, h6, h7, h8⟩

/-- `read_bytes` with no injected faults returns the stored payload as
soon as the file is present and no writer holds the key's write lock. -/
theorem read_bytes_ok (nowT : Int) (key : String) (s : Sys) (b : String)
    (hv : validate_key key = true)
    (hfk : s.files.lookup key = some b)
    (hwl : (lockFor key s).wl = none) :
    (read_bytes {} nowT key s).1 = .ok b := by
  have hacq : luaReadLockAcquire (lockFor key s) =
      (1, { lockFor key s with rd := some ((lockFor key s).rd.getD 0 + 1) }) := by
    rw [luaReadLockAcquire]
    simp [hwl]
  rw [read_bytes]
  simp only [hv, Bool.not_true, Bool.false_eq_true, if_false, acquire_read, hacq,
    ne_eq, not_true, if_true]
  have hfiles : (setLock key { lockFor key s with
      rd := some ((lockFor key s).rd.getD 0 + 1) } s).files = s.files := rfl
  simp only [hfiles, hfk]

/-- After a successful publish, the optional capacity pass preserves the
published file and the released lock when it cannot evict. -/
theorem write_tail (nowT maxB : Int) (key data : String) (s7 : Sys)
    (hfk : s7.files.lookup key = some data)
    (hwl : (lockFor key s7).wl = none)
    (hnp : maxB > 0 → s7.purgeMtx = true ∨ ¬ (get_total_bytes s7 > maxB)) :
    ((if maxB > 0 then ensure_capacity nowT maxB s7 else s7).files.lookup key
      = some data) ∧
    (lockFor key (if maxB > 0 then ensure_capacity nowT maxB s7 else s7)).wl = none := by
  by_cases hmb : maxB > 0
  · simp only [hmb, if_true]
    rcases ensure_capacity_noop nowT maxB s7 (hnp hmb) with he | he <;> rw [he]
    · exact ⟨hfk, hwl⟩
    · exact ⟨hfk, hwl⟩
  · simp only [hmb, if_false]
    exact ⟨hfk, hwl⟩

@[simp] theorem setLock_locks (key : String) (l : KeyLocks) (s : Sys) :
    (setLock key l s).locks = (key, l) :: eraseKey key s.locks := rfl

/-- The success path of `write_bytes_create`: with a valid key, no
published file, no write lock, no positive reader count, a well-formed
(or absent) total counter, and a capacity bound that the purge loop will
not act on, the call returns ok, the payload is published under the key,
and the write lock is released. -/
theorem write_bytes_create_publishes (token : String) (nowT maxB : Int)
    (key data : String) (s : Sys) (c : Int)
    (hv : validate_key key = true)
    (hf : s.files.lookup key = none)
    (hwl : (lockFor key s).wl = none)
    (hrd : (lockFor key s).rd.getD 0 ≤ 0)
    (hc : 0 ≤ c)
    (ht : s.total = none ∧ c = 0 ∨ s.total = some (encodeInt c))
    (hcap : maxB ≤ 0 ∨ s.purgeMtx = true ∨ c + (data.length : Int) ≤ maxB) :
    (write_bytes_create {} token nowT maxB key data s).1 = .ok () ∧
    ((write_bytes_create {} token nowT maxB key data s).2.1).files.lookup key
      = some data ∧
    (lockFor key (write_bytes_create {} token nowT maxB key data s).2.1).wl = none := by
  have hlua := luaWriteLockAcquire_success token (lockFor key s) hwl hrd
  rw [write_bytes_create]
  simp only [hv, Bool.not_true, Bool.false_eq_true, if_false, hf, Option.isSome_none,
    acquire_write, hlua, ne_eq, not_true, if_true]
  simp only [Bool.false_and, Bool.false_eq_true, if_false, setLock_files, setLock_scratch,
    setLock_lru, setLock_sizes, setLock_keyset, setLock_total, setLock_purgeMtx,
    eraseKey_cons_self, hf, Option.isSome_none, release_write]
  simp only [lockFor, setLock_locks, lookup_insert_self, Option.getD_some,
    luaWriteLockRelease, if_true]
  simp only [index_add_on_publish, incrByTotal]
  simp only [setLock_total, setLock_files, setLock_scratch, setLock_lru, setLock_sizes,
    setLock_keyset, setLock_purgeMtx, setLock_locks]
  rcases ht with ⟨ht0, hc0⟩ | ht1
  · simp only [ht0]
    refine ⟨trivial, write_tail nowT maxB key data _ ?_ ?_ ?_⟩
    · simp [touch_lru, List.lookup]
    · simp [lockFor, touch_lru, List.lookup]
    · intro hmb
      rcases hcap with h1 | h1 | h1
      · omega
      · left
        simpa [touch_lru] using h1
      · right
        simp only [touch_lru, get_total_bytes, encodeInt_data_not_empty,
          Bool.false_eq_true, if_false,
          stoll_encodeInt (by omega : (0:Int) ≤ 0 + (data.length : Int)),
          Option.getD_some]
        omega
  · simp only [ht1, redisInt_encodeInt hc]
    refine ⟨trivial, write_tail nowT maxB key data _ ?_ ?_ ?_⟩
    · simp [touch_lru, List.lookup]
    · simp [lockFor, touch_lru, List.lookup]
    · intro hmb
      rcases hcap with h1 | h1 | h1
      · omega
      · left
        simpa [touch_lru] using h1
      · right
        simp only [touch_lru, get_total_bytes, encodeInt_data_not_empty,
          Bool.false_eq_true, if_false,
          stoll_encodeInt (by omega : (0:Int) ≤ c + (data.length : Int)),
          Option.getD_some]
        omega

/-- **C1 (counterexample).** The claim's preconditions hold for key
`"k"` in an empty cache (valid key, no file, idle coordination state,
no fence), yet with `max_bytes = 1` and the 2-byte payload `"ab"`,
`write_bytes_create` then `read_bytes` does not return the bytes: the
create's own `ensure_capacity` pass evicts the just-published entry, and
the read fails with NotFound.  Moreover, when the stored total-bytes
value is not an integer, the create itself surfaces a coordination error
after publishing (the `INCRBY` fails), so the sequence does not succeed
either. -/
theorem c1_round_trip_counterexample :
    validate_key "k" = true ∧
    (({} : Sys).files.lookup "k" = none) ∧
    lockFor "k" ({} : Sys) = idleLocks ∧
    (write_bytes_create {} "tok" 5 1 "k" "ab" {}).1 = .ok () ∧
    (read_bytes {} 6 "k" (write_bytes_create {} "tok" 5 1 "k" "ab" {}).2.1).1 =
      .error .notFound ∧
    (write_bytes_create {} "tok" 5 0 "k" "ab" { total := some "junk" }).1 =
      .error .coordErr := by
  refine ⟨by decide, rfl, rfl, ?_, ?_, ?_⟩ <;> rfl

/-- **C1 (amended).** For every valid key `k` and byte string `b`,
starting from a state with no file for `k`, an idle coordination state
for `k` (no write lock, no reader count, no eviction fence), and a
total-bytes counter that is absent or holds a canonical non-negative
integer `c`, `write_bytes_create(k, b)` followed by `read_bytes(k)` with
no interleaved operations succeeds and returns exactly the bytes `b` —
provided the capacity pass triggered by the create cannot evict `k`:
`max_bytes ≤ 0`, or another purger holds the purge mutex, or the
recorded total after publish (`c + |b|`) does not exceed `max_bytes`. -/
theorem c1_round_trip (k b tok : String) (t1 t2 maxB : Int) (c : Int) (s : Sys)
    (hv : validate_key k = true)
    (hf : s.files.lookup k = none)
    (hl : lockFor k s = idleLocks)
    (hc : 0 ≤ c)
    (ht : s.total = none ∧ c = 0 ∨ s.total = some (encodeInt c))
    (hcap : maxB ≤ 0 ∨ s.purgeMtx = true ∨ c + (b.length : Int) ≤ maxB) :
    (write_bytes_create {} tok t1 maxB k b s).1 = .ok () ∧
    (read_bytes {} t2 k (write_bytes_create {} tok t1 maxB k b s).2.1).1 = .ok b := by
  have hwl : (lockFor k s).wl = none := by rw [hl]; rfl
  have hrd : (lockFor k s).rd.getD 0 ≤ 0 := by rw [hl]; decide
  have hpub := write_bytes_create_publishes tok t1 maxB k b s c hv hf hwl hrd hc ht hcap
  exact ⟨hpub.1, read_bytes_ok t2 k _ b hv hpub.2.1 hpub.2.2⟩

/-- Witness for C1 (amended) at concrete inputs: in an empty cache with
`max_bytes = 10`, creating `"k" ↦ "ab"` then reading `"k"` returns
`"ab"`. -/
theorem c1_round_trip_witness :
    (write_bytes_create {} "tok" 5 10 "k" "ab" {}).1 = .ok () ∧
    (read_bytes {} 6 "k" (write_bytes_create {} "tok" 5 10 "k" "ab" {}).2.1).1 =
      .ok "ab" :=
  c1_round_trip "k" "ab" "tok" 5 6 10 0 {} (by decide) rfl rfl (by decide)
    (Or.inl ⟨rfl, rfl⟩) (Or.inr (Or.inr (by decide)))

/-- If the write-lock acquire script reported success, it installed the
caller's token. -/
theorem luaWriteLockAcquire_one (token : String) (l : KeyLocks)
    (h : (luaWriteLockAcquire token l).1 = 1) :
    (luaWriteLockAcquire token l).2 = { l with wl := some token } := by
  rw [luaWriteLockAcquire] at h ⊢
  by_cases hw : l.wl.isSome
  · simp [hw] at h
  · have hwn : l.wl = none := Option.not_isSome_iff_eq_none.1 hw
    by_cases hrd : l.rd.getD 0 > 0
    · simp [hw, hrd] at h
    · simp [hw, hrd, hwn]

/-- **C3.** Whenever `write_bytes_create` fails after its scratch file
has been created and before the rename completes — a write failure, an
fsync failure, the target found to exist at the final create-only check,
or a rename failure — the scratch file is unlinked and the write lock is
released before the error is surfaced (they are the last two effects, in
that order), and no rename publishes a file for the key. -/
theorem c3_scratch_cleanup (f : WFaults) (token : String) (nowT maxB : Int)
    (key data : String) (s : Sys) (e : WErr)
    (herr : (write_bytes_create f token nowT maxB key data s).1 = .error e)
    (hkind : e = .ioWrite ∨ e = .ioFsync ∨ e = .concurrentExists ∨ e = .ioRename) :
    ((write_bytes_create f token nowT maxB key data s).2.1).scratch.lookup key
      = none ∧
    (lockFor key (write_bytes_create f token nowT maxB key data s).2.1).wl = none ∧
    (∃ pre, (write_bytes_create f token nowT maxB key data s).2.2 =
      pre ++ [Ev.evUnlinkScratch, Ev.evReleaseWrite]) ∧
    Ev.evRename true ∉ (write_bytes_create f token nowT maxB key data s).2.2 := by
  rw [write_bytes_create] at herr ⊢
  cases hvb : validate_key key with
  | false =>
    exfalso
    simp only [hvb, Bool.not_false, if_true] at herr
    rcases hkind with rfl | rfl | rfl | rfl <;> simp at herr
  | true =>
    simp only [hvb, Bool.not_true, Bool.false_eq_true, if_false] at herr ⊢
    cases hlf : (s.files.lookup key).isSome with
    | true =>
      exfalso
      simp only [hlf, if_true] at herr
      rcases hkind with rfl | rfl | rfl | rfl <;> simp at herr
    | false =>
      simp only [hlf, Bool.false_eq_true, if_false] at herr ⊢
      rcases hlua : luaWriteLockAcquire token (lockFor key s) with ⟨res, lw⟩
      simp only [acquire_write, hlua] at herr ⊢
      by_cases hres : res = 1
      case neg =>
        exfalso
        rw [if_pos hres] at herr
        rcases hkind with rfl | rfl | rfl | rfl <;> simp at herr
      case pos =>
        subst hres
        have hlw : lw = { lockFor key s with wl := some token } := by
          have h1 := luaWriteLockAcquire_one token (lockFor key s) (by rw [hlua])
          rw [hlua] at h1
          exact h1
        rw [if_neg (by omega : ¬ (1:Int) ≠ 1)] at herr ⊢
        cases hmk : f.mkstempFail with
        | true =>
          exfalso
          simp only [hmk, if_true] at herr
          rcases hkind with rfl | rfl | rfl | rfl <;> simp at herr
        | false =>
          simp only [hmk, Bool.false_eq_true, if_false] at herr ⊢
          cases hwf : f.writeFail && decide (data ≠ "") with
          | true =>
            simp only [hwf, if_true] at herr ⊢
            refine ⟨?_, ?_, ?_, ?_⟩
            · simp [release_write, eraseKey_cons_self, lookup_eraseKey_self]
            · simp [release_write, luaWriteLockRelease, lockFor, setLock_locks,
                List.lookup, hlw]
            · exact ⟨[.evStat false, .evAcquireWrite 1, .evMkstemp true,
                .evWriteChunk false, .evClose], by simp⟩
            · decide
          | false =>
            simp only [hwf, Bool.false_eq_true, if_false] at herr ⊢
            cases hfs : f.fsyncFail with
            | true =>
              simp only [hfs, if_true] at herr ⊢
              refine ⟨?_, ?_, ?_, ?_⟩
              · simp [release_write, eraseKey_cons_self, lookup_eraseKey_self]
              · simp [release_write, luaWriteLockRelease, lockFor, setLock_locks,
                  List.lookup, hlw]
              · exact ⟨[.evStat false, .evAcquireWrite 1, .evMkstemp true] ++
                  (if data = "" then [] else [Ev.evWriteChunk true]) ++
                  [.evFsync false, .evClose], by simp⟩
              · split <;> decide
            | false =>
              simp only [hfs, Bool.false_eq_true, if_false] at herr ⊢
              cases hcc : f.concurrentCreate with
              | some bex =>
                simp only [hcc, lookup_insert_self, Option.isSome_some, if_true]
                  at herr ⊢
                refine ⟨?_, ?_, ?_, ?_⟩
                · simp [release_write, eraseKey_cons_self, lookup_eraseKey_self]
                · simp [release_write, luaWriteLockRelease, lockFor, setLock_locks,
                    List.lookup, hlw]
                · exact ⟨[.evStat false, .evAcquireWrite 1, .evMkstemp true] ++
                    (if data = "" then [] else [Ev.evWriteChunk true]) ++
                    [.evFsync true, .evClose, .evStat true], by simp⟩
                · split <;> decide
              | none =>
                simp only [hcc, setLock_files, hlf, Bool.false_eq_true, if_false]
                  at herr ⊢
                cases hrn : f.renameFail with
                | true =>
                  simp only [hrn, if_true] at herr ⊢
                  refine ⟨?_, ?_, ?_, ?_⟩
                  · simp [release_write, eraseKey_cons_self, lookup_eraseKey_self]
                  · simp [release_write, luaWriteLockRelease, lockFor, setLock_locks,
                      List.lookup, hlw]
                  · exact ⟨[.evStat false, .evAcquireWrite 1, .evMkstemp true] ++
                      (if data = "" then [] else [Ev.evWriteChunk true]) ++
                      [.evFsync true, .evClose, .evStat false, .evRename false],
                      by simp⟩
                  · split <;> decide
                | false =>
                  exfalso
                  simp only [hrn, Bool.false_eq_true, if_false] at herr
                  split at herr
                  · rcases hkind with rfl | rfl | rfl | rfl <;> simp at herr
                  · simp at herr

/-- Witness for C3: an injected fsync failure on `create("k", "d")` in
an empty cache surfaces an error whose last effects are the scratch
unlink and the write-lock release, leaves no scratch file and no lock,
and publishes nothing. -/
theorem c3_scratch_cleanup_witness :
    ((write_bytes_create { fsyncFail := true } "t" 0 0 "k" "d" {}).2.1).scratch.lookup
      "k" = none ∧
    (lockFor "k" (write_bytes_create { fsyncFail := true } "t" 0 0 "k" "d" {}).2.1).wl
      = none ∧
    (∃ pre, (write_bytes_create { fsyncFail := true } "t" 0 0 "k" "d" {}).2.2 =
      pre ++ [Ev.evUnlinkScratch, Ev.evReleaseWrite]) ∧
    Ev.evRename true ∉ (write_bytes_create { fsyncFail := true } "t" 0 0 "k" "d" {}).2.2 :=
  c3_scratch_cleanup { fsyncFail := true } "t" 0 0 "k" "d" {} .ioFsync rfl
    (Or.inr (Or.inl rfl))

end PocRedisCache
